import Mathlib

/-!
Shallow embedding of the routing-and-reconciliation core of
`jupyterlab-hybrid-kernels` (sources under `src/`), together with proofs
of the specification's claims about it.

JavaScript objects whose keys are kernel names are modelled as association
lists `List (String × α)` (lookup takes the first matching key), object
spread `\x7b...a, ...b\x7d` as `jsSpread`, nullable values as `Option`,
and rejected promises as `Except`.
-/

set_option maxRecDepth 4000

/-- Which backend a routed operation is delegated to: the in-process
("lite"/local) backend or the networked remote server backend. -/
inductive Backend where
  | lite
  | remote
deriving DecidableEq, Repr

/-- The two operating modes (`tokens.ts`): `hybrid` consults a true local
Jupyter server, `remote` consults a user-configured remote server. -/
inductive HybridKernelsMode where
  | hybrid
  | remote
deriving DecidableEq, Repr

/-- Lookup of a key in a JS object modelled as an association list:
`obj[k]`, returning `none` for an absent key. -/
def jsLookup (m : List (String × α)) (k : String) : Option α :=
  (m.find? (fun p => p.1 = k)).map (·.2)

/-- The keys of a JS object modelled as an association list. -/
def jsKeys (m : List (String × α)) : List String :=
  m.map (·.1)

/-- JS object spread `\x7b...a, ...b\x7d`: keys of `a` in order (with `b`'s
value winning on collision), then the keys of `b` not present in `a`. -/
def jsSpread (a b : List (String × α)) : List (String × α) :=
  a.map (fun p => (p.1, ((jsLookup b p.1).getD p.2))) ++
    b.filter (fun p => (jsLookup a p.1).isNone)

/-- Model of JS `s.startsWith(pre)` (kernel-reducible, unlike the
position-based core `String` primitive). -/
def jsStartsWith (s pre : String) : Bool :=
  pre.data.isPrefixOf s.data

/-- Model of JS `s.includes(c)` for a single character. -/
def jsContainsChar (s : String) (c : Char) : Bool :=
  s.data.contains c

/-- Split a character list at the first occurrence of `sep`, returning the
parts before and after it, or `none` when `sep` does not occur. -/
def splitFirst (sep : List Char) : List Char → Option (List Char × List Char)
  | [] => if sep.isEmpty then some ([], []) else none
  | c :: cs =>
    if sep.isPrefixOf (c :: cs) then some ([], (c :: cs).drop sep.length)
    else
      match splitFirst sep cs with
      | some (pre, post) => some (c :: pre, post)
      | none => none

/-- Split a character list on every occurrence of the character `sep`. -/
def splitChar (sep : Char) : List Char → List (List Char)
  | [] => [[]]
  | c :: cs =>
    if c = sep then [] :: splitChar sep cs
    else
      match splitChar sep cs with
      | [] => [[c]]
      | h :: t => (c :: h) :: t

/-- An uppercase hexadecimal digit, as produced by `encodeURIComponent`. -/
def hexDigitChar (n : Nat) : Char :=
  if n < 10 then Char.ofNat (48 + n) else Char.ofNat (55 + n)

/-- The UTF-8 encoding of a character, as a list of byte values. -/
def utf8Bytes (c : Char) : List Nat :=
  let n := c.toNat
  if n < 128 then [n]
  else if n < 2048 then [192 + n / 64, 128 + n % 64]
  else if n < 65536 then [224 + n / 4096, 128 + (n / 64) % 64, 128 + n % 64]
  else [240 + n / 262144, 128 + (n / 4096) % 64, 128 + (n / 64) % 64, 128 + n % 64]

/-- Percent-encoding of one byte value: `%HH` with uppercase hex digits. -/
def percentEncodeByte (b : Nat) : List Char :=
  [Char.ofNat 37, hexDigitChar (b / 16), hexDigitChar (b % 16)]

/-- The characters `encodeURIComponent` leaves unescaped: ASCII letters,
digits, and `- _ . ! ~ *` apostrophe `( )`. -/
def isURIUnescaped (c : Char) : Bool :=
  (65 ≤ c.toNat && c.toNat ≤ 90) || (97 ≤ c.toNat && c.toNat ≤ 122) ||
    (48 ≤ c.toNat && c.toNat ≤ 57) ||
    c.toNat = 45 || c.toNat = 95 || c.toNat = 46 ||
    c.toNat = 33 || c.toNat = 126 || c.toNat = 42 ||
    c.toNat = 39 || c.toNat = 40 || c.toNat = 41

/-- Model of the ECMAScript `encodeURIComponent` function: unescaped
characters pass through, every other character is replaced by the
percent-encoding of its UTF-8 bytes. -/
def encodeURIComponent (s : String) : String :=
  String.mk (s.data.flatMap fun c =>
    if isURIUnescaped c then [c] else (utf8Bytes c).flatMap percentEncodeByte)

/-- Model of `new URL(u).origin` for an already-normalized absolute
`http(s)` URL without userinfo or default-port elision: the scheme and
authority, with any path, query or fragment discarded. -/
def urlOrigin (u : String) : String :=
  match splitFirst [Char.ofNat 58, Char.ofNat 47, Char.ofNat 47] u.data with
  | some (scheme, rest) =>
    String.mk (scheme ++ [Char.ofNat 58, Char.ofNat 47, Char.ofNat 47]
      ++ rest.takeWhile (fun c => c != Char.ofNat 47))
  | none => u

/-- Model of `URLExt.join(base, path)` for dot-free path segments: the
origin of `base` followed by the slash-normalized concatenation of the
path components of `base` and `path`. -/
def urlJoin (base path : String) : String :=
  let basePath : List Char :=
    match splitFirst [Char.ofNat 58, Char.ofNat 47, Char.ofNat 47] base.data with
    | some (_, rest) => rest.dropWhile (fun c => c != Char.ofNat 47)
    | none => base.data
  let segments :=
    ((splitChar (Char.ofNat 47) basePath ++ splitChar (Char.ofNat 47) path.data).filter
      (fun s => !s.isEmpty)).map String.mk
  urlOrigin base ++ "/" ++ String.intercalate "/" segments

/-- The resource-URL rewriting step of
`HybridKernelSpecManager._transformRemoteSpecResources`
(`kernelspec.ts` lines 212-235): absolute `http(s)` URLs pass through,
root-relative paths are joined onto the origin of `baseUrl`, other paths
are joined onto the full `baseUrl`; a configured (non-empty) token is then
appended as a `token=` query parameter with `&` when the URL already has a
query string and `?` otherwise. -/
def transformResourceUrl (baseUrl token resourcePath : String) : String :=
  let transformedUrl :=
    if jsStartsWith resourcePath "http://" || jsStartsWith resourcePath "https://" then
      resourcePath
    else if jsStartsWith resourcePath "/" then
      urlOrigin baseUrl ++ resourcePath
    else
      urlJoin baseUrl resourcePath
  if token ≠ "" then
    let separator := if jsContainsChar transformedUrl (Char.ofNat 63) then "&" else "?"
    transformedUrl ++ separator ++ "token=" ++ encodeURIComponent token
  else
    transformedUrl

/-- A normalized kernel spec (`KernelSpec.ISpecModel`): `env` and
`metadata` are opaque JSON objects to the core, modelled as string maps. -/
structure SpecModel where
  name : String
  display_name : String
  language : String
  argv : List String
  env : List (String × String)
  metadata : List (String × String)
  resources : List (String × String)
deriving DecidableEq, Repr

/-- A spec registry (`KernelSpec.ISpecModels`): a default kernel name and
a map of kernel name to spec. -/
structure SpecModels where
  default : String
  kernelspecs : List (String × SpecModel)
deriving DecidableEq, Repr

/-- A running kernel model (`Kernel.IModel`): backend-assigned id and
kernel name. -/
structure KernelModel where
  id : String
  name : String
deriving DecidableEq, Repr

/-- A running session model, reduced to the fields the routing consults. -/
structure SessionModel where
  id : String
  name : String
deriving DecidableEq, Repr

/-- The fields the remote-spec rewriter reads off a raw spec object (either
a flat entry or the nested `spec` object of a server envelope); every field
may be absent. Resource values of non-string JSON type are `none`. -/
structure RawSpecObj where
  name : Option String
  display_name : Option String
  language : Option String
  argv : Option (List String)
  env : Option (List (String × String))
  metadata : Option (List (String × String))
  resources : Option (List (String × Option String))
deriving DecidableEq, Repr

/-- A raw kernelspec map entry as returned by a server API: its own (flat)
fields `top`, and an optional nested `spec` envelope object. -/
structure RawEntry where
  top : RawSpecObj
  spec : Option RawSpecObj
deriving DecidableEq, Repr

/-- A raw spec registry as fetched from the remote endpoint: `default` may
be absent and individual entries may be `null`. -/
structure RawSpecModels where
  default : Option String
  kernelspecs : List (String × Option RawEntry)
deriving DecidableEq, Repr

/-- A raw spec object with every field absent. -/
def RawSpecObj.empty : RawSpecObj :=
  { name := none, display_name := none, language := none, argv := none,
    env := none, metadata := none, resources := none }

/-- The per-entry normalization of
`HybridKernelSpecManager._transformRemoteSpecResources`
(`kernelspec.ts` lines 198-246): unwrap the nested `spec` envelope
(preferring `rawSpec.spec` when present), take `rawSpec.resources`
in preference to `spec.resources`, rewrite each string-valued resource URL
(skipping non-string values), and default every missing field. -/
def transformRemoteEntry (baseUrl token : String) (name : String) (rawSpec : RawEntry) :
    SpecModel :=
  let spec := rawSpec.spec.getD rawSpec.top
  let resources := (rawSpec.top.resources.orElse (fun _ => spec.resources)).getD []
  let transformedResources := resources.filterMap fun p =>
    match p.2 with
    | some resourcePath => some (p.1, transformResourceUrl baseUrl token resourcePath)
    | none => none
  { name := spec.name.getD name,
    display_name := spec.display_name.getD name,
    language := spec.language.getD "",
    argv := spec.argv.getD [],
    env := spec.env.getD [],
    metadata := spec.metadata.getD [],
    resources := transformedResources }

/-- The kernelspec-map loop of
`HybridKernelSpecManager._transformRemoteSpecResources`
(`kernelspec.ts` lines 193-247): `null` entries are skipped, every other
entry is normalized by `transformRemoteEntry`. (The surrounding function
returns the input registry with this transformed map; its `default` field
passes through untouched.) -/
def transformRemoteKernelspecs (baseUrl token : String)
    (kernelspecs : List (String × Option RawEntry)) : List (String × SpecModel) :=
  kernelspecs.filterMap fun p =>
    match p.2 with
    | none => none
    | some rawSpec => some (p.1, transformRemoteEntry baseUrl token p.1 rawSpec)

/-- The observable state of `HybridKernelSpecManager`: the stored merged
registry (`_specs`), initially `null`. -/
structure SpecManagerState where
  specs : Option SpecModels
deriving DecidableEq, Repr

/-- The server-side fetch outcome consumed by a spec refresh: in `hybrid`
mode the local Jupyter server manager's registry (`none` when the refresh
threw), in `remote` mode the parsed JSON of the remote endpoint (`none`
when no base URL is configured, the response was not ok, or the request
threw). -/
inductive ServerFetch where
  | hybridSpecs (specs : Option SpecModels)
  | remoteSpecs (specs : Option RawSpecModels)
deriving DecidableEq, Repr

/-- Whether the server side yielded nothing (`!serverSpecs` in the code). -/
def ServerFetch.isNone : ServerFetch → Bool
  | .hybridSpecs specs => specs.isNone
  | .remoteSpecs specs => specs.isNone

/-- Model of `serverSpecs?.default` of the fetched server-side registry. -/
def ServerFetch.defaultName : ServerFetch → Option String
  | .hybridSpecs specs => specs.map (·.default)
  | .remoteSpecs specs => specs.bind (·.default)

/-- The merged kernelspec map contributed by the server side
(`transformedServerSpecs?.kernelspecs`): in `remote` mode the fetched raw
map is first normalized by the resource rewriter, in `hybrid` mode it is
used as is. -/
def ServerFetch.transformedKernelspecs (baseUrl token : String) :
    ServerFetch → Option (List (String × SpecModel))
  | .hybridSpecs specs => specs.map (·.kernelspecs)
  | .remoteSpecs specs =>
    specs.map (fun s => transformRemoteKernelspecs baseUrl token s.kernelspecs)

/-- The registry built by `HybridKernelSpecManager.refreshSpecs`
(`kernelspec.ts` lines 160-171) on a rebuild: `default` is
`serverSpecs?.default ?? newLiteSpecs?.default ?? ''` and `kernelspecs`
spreads the lite kernelspecs over the (transformed) server kernelspecs. -/
def mergedRegistry (baseUrl token : String) (serverFetch : ServerFetch)
    (newLiteSpecs : Option SpecModels) : SpecModels :=
  { default := (serverFetch.defaultName.orElse
      (fun _ => newLiteSpecs.map (·.default))).getD "",
    kernelspecs := jsSpread
      ((serverFetch.transformedKernelspecs baseUrl token).getD [])
      ((newLiteSpecs.map (·.kernelspecs)).getD []) }

/-- One run of `HybridKernelSpecManager.refreshSpecs` (`kernelspec.ts`
lines 118-175), given the outcome of the mode-dependent server-side fetch
and of the in-process (lite) manager refresh. Returns the new manager
state and the list of registries emitted on `specsChanged`. When both
sides yield nothing (`!serverSpecs && !newLiteSpecs`) the update is
skipped; otherwise the merged registry is stored and emitted. -/
def refreshSpecs (baseUrl token : String) (serverFetch : ServerFetch)
    (newLiteSpecs : Option SpecModels) (st : SpecManagerState) :
    SpecManagerState × List SpecModels :=
  if serverFetch.isNone && newLiteSpecs.isNone then
    (st, [])
  else
    let specs := mergedRegistry baseUrl token serverFetch newLiteSpecs
    ({ specs := some specs }, [specs])

/-- The in-process (lite) spec registry truthiness test
`!!liteKernelSpecs.specs?.kernelspecs[n]` used by the routers:
the lite registry may itself be `null`. -/
def liteHasSpec (liteSpecs : Option SpecModels) (n : String) : Bool :=
  (liteSpecs.bind fun s => jsLookup s.kernelspecs n).isSome

/-- Routing of `HybridKernelManager.startNew` (`kernelspec.ts` lines 421-433):
route to the lite backend exactly when the requested kernel name is truthy
(present and non-empty) and is a key of the in-process (lite) spec
registry; otherwise route to the remote backend. -/
def HybridKernelManager.startNewRoute (liteSpecs : Option SpecModels)
    (name : Option String) : Backend :=
  if name.getD "" ≠ "" && liteHasSpec liteSpecs (name.getD "") then
    .lite
  else
    .remote

/-- Routing of `HybridKernelClient.startNew` (`kernelclient.ts` lines 56-64):
identical name-based classification against the lite spec registry. -/
def HybridKernelClient.startNewRoute (liteSpecs : Option SpecModels)
    (name : Option String) : Backend :=
  if name.getD "" ≠ "" && liteHasSpec liteSpecs (name.getD "") then
    .lite
  else
    .remote

/-- Model of `HybridKernelManager._isLiteKernel` (`kernelspec.ts` lines 469-475):
a model is classified lite when its id appears in the lite kernel
manager's running enumeration, or when its (defaulted-to-empty) name is a
key of the lite spec registry. -/
def HybridKernelManager.isLiteKernel (liteRunning : List KernelModel)
    (liteSpecs : Option SpecModels) (model : Option String × Option String) : Bool :=
  let id := model.1
  let name := model.2
  let hasSpec := liteHasSpec liteSpecs (name.getD "")
  let runningHit := (liteRunning.find? fun kernel =>
    match id with
    | some i => kernel.id = i
    | none => false).isSome
  runningHit || hasSpec

/-- Routing of `HybridKernelManager.connectTo` (`kernelspec.ts` lines
378-386): classify `options.model` (id and name) with `_isLiteKernel`. -/
def HybridKernelManager.connectToRoute (liteRunning : List KernelModel)
    (liteSpecs : Option SpecModels) (model : KernelModel) : Backend :=
  if HybridKernelManager.isLiteKernel liteRunning liteSpecs (some model.id, some model.name) then
    .lite
  else
    .remote

/-- Model of `HybridKernelManager.shutdown` (`kernelspec.ts` lines 438-443):
classify the bare `\x7b id \x7d` with `_isLiteKernel` and delegate to the
chosen backend; the result lists the delegated calls (backend, id). -/
def HybridKernelManager.shutdownCalls (liteRunning : List KernelModel)
    (liteSpecs : Option SpecModels) (id : String) : List (Backend × String) :=
  if HybridKernelManager.isLiteKernel liteRunning liteSpecs (some id, none) then
    [(.lite, id)]
  else
    [(.remote, id)]

/-- Model of `HybridKernelManager.findById` (`kernelspec.ts` lines 458-464): probe
the remote kernel manager first; on a hit return it, otherwise probe the
lite kernel manager. Each backend's `findById` is modelled as lookup in
that backend's known kernel models. -/
def HybridKernelManager.findById (remoteKernels liteKernels : List KernelModel)
    (id : String) : Option KernelModel :=
  match remoteKernels.find? (fun kernel => kernel.id = id) with
  | some kernel => some kernel
  | none => liteKernels.find? (fun kernel => kernel.id = id)

/-- Model of `HybridSessionManager.findById` (`session.ts`): probe the remote
session manager first, then the lite session manager. -/
def HybridSessionManager.findById (remoteSessions liteSessions : List SessionModel)
    (id : String) : Option SessionModel :=
  match remoteSessions.find? (fun session => session.id = id) with
  | some session => some session
  | none => liteSessions.find? (fun session => session.id = id)

/-- The change-event argument of the lite kernel client's `changed` signal
(`IObservableMap.IChangedArgs`): a type tag and the affected kernel ids
(`newValue`/`oldValue` may be absent). -/
structure LiteChangedArgs where
  type : String
  newValue : Option String
  oldValue : Option String
deriving DecidableEq, Repr

/-- The `changed` handler installed by the `HybridKernelClient`
constructor (`kernelclient.ts` lines 27-34): an `add` event with a
`newValue` inserts its id into `_liteKernelIds`, a `remove` event with an
`oldValue` deletes its id. -/
def trackLiteChange (liteKernelIds : List String) (args : LiteChangedArgs) : List String :=
  if args.type = "add" && args.newValue.isSome then
    let id := args.newValue.getD ""
    if liteKernelIds.contains id then liteKernelIds else liteKernelIds ++ [id]
  else if args.type = "remove" && args.oldValue.isSome then
    liteKernelIds.filter (fun i => i ≠ args.oldValue.getD "")
  else
    liteKernelIds

/-- The joint state of the lite kernel client's own kernels map (the
source of the `changed` signal, whose ids `listRunning` reports) and of
`HybridKernelClient._liteKernelIds` as maintained by the handler. -/
structure HybridClientState where
  liteKernels : List String
  liteKernelIds : List String
deriving DecidableEq, Repr

/-- Lifecycle events of the lite kernel client: a kernel start adds an
entry to its kernels map and fires an `add` change, a kernel shutdown
removes it and fires a `remove` change. -/
inductive LiteOp where
  | start (id : String)
  | stop (id : String)
deriving DecidableEq, Repr

/-- One lite kernel lifecycle step: the lite client mutates its kernels
map and the hybrid client's handler processes the fired change event. -/
def applyLiteOp (st : HybridClientState) (op : LiteOp) : HybridClientState :=
  match op with
  | .start id =>
    { liteKernels := if st.liteKernels.contains id then st.liteKernels else st.liteKernels ++ [id],
      liteKernelIds := trackLiteChange st.liteKernelIds ⟨"add", some id, none⟩ }
  | .stop id =>
    { liteKernels := st.liteKernels.filter (fun i => i ≠ id),
      liteKernelIds := trackLiteChange st.liteKernelIds ⟨"remove", none, some id⟩ }

/-- The hybrid client state reached from the initial (empty) state by a
sequence of lite kernel lifecycle events. -/
def runLiteOps (ops : List LiteOp) : HybridClientState :=
  ops.foldl applyLiteOp ⟨[], []⟩

/-- Model of `HybridKernelClient._isLiteKernel` (`kernelclient.ts` lines 150-152):
membership of the id in the tracked `_liteKernelIds` set. -/
def HybridKernelClient.isLiteKernel (st : HybridClientState) (id : String) : Bool :=
  st.liteKernelIds.contains id

/-- Model of `HybridKernelClient.shutdown` (`kernelclient.ts` lines 103-108): the
delegated calls (backend, id). -/
def HybridKernelClient.shutdownCalls (st : HybridClientState) (id : String) :
    List (Backend × String) :=
  if HybridKernelClient.isLiteKernel st id then [(.lite, id)] else [(.remote, id)]

/-- Model of `HybridKernelClient.restart` (`kernelclient.ts` lines 69-74): the
delegated calls (backend, id). -/
def HybridKernelClient.restartCalls (st : HybridClientState) (id : String) :
    List (Backend × String) :=
  if HybridKernelClient.isLiteKernel st id then [(.lite, id)] else [(.remote, id)]

/-- Model of `HybridKernelClient.interrupt` (`kernelclient.ts` lines 79-84): the
delegated calls (backend, id). -/
def HybridKernelClient.interruptCalls (st : HybridClientState) (id : String) :
    List (Backend × String) :=
  if HybridKernelClient.isLiteKernel st id then [(.lite, id)] else [(.remote, id)]

/-- Model of `HybridKernelClient.listRunning` (`kernelclient.ts` lines 89-98): the
lite client's kernels first; the remote enumeration is awaited inside a
`try`, so a rejected remote call (modelled as `Except.error`) degrades the
result to the lite kernels alone instead of rejecting. -/
def HybridKernelClient.listRunning (liteKernels : List KernelModel)
    (remoteResult : Except Unit (List KernelModel)) : List KernelModel :=
  match remoteResult with
  | .ok remoteKernels => liteKernels ++ remoteKernels
  | .error _ => liteKernels

/-- The PageConfig-backed store read and written by `RemoteServerConfig`
(`config.ts`): `PageConfig.getOption` returns `""` for an unset key, so
both values are plain strings. -/
structure PageConfigStore where
  hybridKernelsBaseUrl : String
  hybridKernelsToken : String
deriving DecidableEq, Repr

/-- The outcome of one `RemoteServerConfig.update` call: the resulting
store, the number of `PageConfig.setOption` writes, and the number of
`changed` signal emissions. -/
structure UpdateOutcome where
  store : PageConfigStore
  writes : Nat
  emits : Nat
deriving DecidableEq, Repr

/-- Model of `RemoteServerConfig.update` (`config.ts` lines 74-92): each provided
field is written (and flagged) only when it differs from the currently
stored value; the `changed` signal is emitted once at the end when any
field was written. -/
def RemoteServerConfig.update (config : Option String × Option String)
    (store : PageConfigStore) : UpdateOutcome :=
  let currentBaseUrl := store.hybridKernelsBaseUrl
  let currentToken := store.hybridKernelsToken
  let step1 :=
    match config.1 with
    | some b =>
      if b ≠ currentBaseUrl then ({ store with hybridKernelsBaseUrl := b }, 1, true)
      else (store, 0, false)
    | none => (store, 0, false)
  let step2 :=
    match config.2 with
    | some t =>
      if t ≠ currentToken then
        ({ step1.1 with hybridKernelsToken := t }, step1.2.1 + 1, true)
      else (step1.1, step1.2.1, step1.2.2)
    | none => (step1.1, step1.2.1, step1.2.2)
  { store := step2.1, writes := step2.2.1, emits := if step2.2.2 then 1 else 0 }

/-- The kernel-name keys contributed by the server side, as fetched
(before any resource rewriting, which preserves keys of non-null
entries). -/
def ServerFetch.specKeys : ServerFetch → List String
  | .hybridSpecs specs => (specs.map (fun s => jsKeys s.kernelspecs)).getD []
  | .remoteSpecs specs => (specs.map (fun s => jsKeys s.kernelspecs)).getD []

/-- The claim's description of the resource-URL rewrite, written from the
specification's words: unchanged for `http://`/`https://` URLs, origin of
`baseUrl` prepended for root-relative paths, path-joined onto the full
`baseUrl` otherwise; a configured token is appended as `token=<encoded>`
with `&` when the URL already carries a query string, else `?`. -/
def rewriteResourceUrlSpec (baseUrl token resourcePath : String) : String :=
  let absoluteUrl :=
    if jsStartsWith resourcePath "http://" then resourcePath
    else if jsStartsWith resourcePath "https://" then resourcePath
    else if jsStartsWith resourcePath "/" then urlOrigin baseUrl ++ resourcePath
    else urlJoin baseUrl resourcePath
  if token = "" then absoluteUrl
  else
    absoluteUrl ++ (if jsContainsChar absoluteUrl (Char.ofNat 63) then "&" else "?")
      ++ "token=" ++ encodeURIComponent token

theorem jsLookup_nil (k : String) : jsLookup ([] : List (String × α)) k = none := rfl

theorem jsLookup_cons (p : String × α) (m : List (String × α)) (k : String) :
    jsLookup (p :: m) k = if p.1 = k then some p.2 else jsLookup m k := by
  by_cases h : p.1 = k <;> simp [jsLookup, List.find?_cons, h]

theorem jsKeys_nil : jsKeys ([] : List (String × α)) = [] := rfl

theorem jsKeys_cons (p : String × α) (m : List (String × α)) :
    jsKeys (p :: m) = p.1 :: jsKeys m := rfl

/-- A key is in an object exactly when its lookup succeeds. -/
theorem jsLookup_isSome_iff_mem (m : List (String × α)) (k : String) :
    (jsLookup m k).isSome = true ↔ k ∈ jsKeys m := by
  induction m with
  | nil => simp [jsLookup_nil, jsKeys_nil]
  | cons p ms ih =>
    rw [jsLookup_cons, jsKeys_cons]
    by_cases h : p.1 = k
    · simp [h]
    · simp only [h, if_false, List.mem_cons, ih]
      constructor
      · exact fun hm => Or.inr hm
      · rintro (hk | hm)
        · exact absurd hk.symm h
        · exact hm

theorem jsLookup_append (xs ys : List (String × α)) (k : String) :
    jsLookup (xs ++ ys) k = (jsLookup xs k).orElse (fun _ => jsLookup ys k) := by
  induction xs with
  | nil => simp [jsLookup_nil, Option.orElse]
  | cons p ms ih =>
    rw [List.cons_append, jsLookup_cons, jsLookup_cons]
    by_cases h : p.1 = k
    · simp [h, Option.orElse]
    · simp only [h, if_false, ih]

/-- Lookup in the overlay part of a spread: a hit in `a` is replaced by the
value of `b` when `b` also binds the key. -/
theorem jsLookup_spread_overlay (a b : List (String × α)) (k : String) :
    jsLookup (a.map fun p => (p.1, ((jsLookup b p.1).getD p.2))) k
      = (jsLookup a k).map (fun v => (jsLookup b k).getD v) := by
  induction a with
  | nil => simp [jsLookup_nil]
  | cons p ms ih =>
    rw [List.map_cons, jsLookup_cons, jsLookup_cons]
    by_cases h : p.1 = k
    · simp [h]
    · simp only [h, if_false, ih]

/-- Lookup in an object filtered by a predicate on keys alone. -/
theorem jsLookup_filter_key (b : List (String × α)) (g : String → Bool) (k : String) :
    jsLookup (b.filter fun p => g p.1) k = if g k then jsLookup b k else none := by
  induction b with
  | nil => simp [jsLookup_nil]
  | cons p ms ih =>
    rw [List.filter_cons]
    by_cases h : p.1 = k
    · subst h
      by_cases hg : g p.1
      · simp [hg, jsLookup_cons]
      · simp only [hg, Bool.false_eq_true, if_false, ih]
    · by_cases hg : g p.1
      · simp only [hg, if_true, jsLookup_cons, h, if_false, ih]
      · simp only [hg, Bool.false_eq_true, if_false, ih, jsLookup_cons, h]

/-- Looking a key up in a spread object: the second object's binding wins,
the first object is the fallback. -/
theorem jsLookup_jsSpread (a b : List (String × α)) (k : String) :
    jsLookup (jsSpread a b) k = (jsLookup b k).orElse (fun _ => jsLookup a k) := by
  rw [jsSpread, jsLookup_append, jsLookup_spread_overlay,
    jsLookup_filter_key b (fun s => (jsLookup a s).isNone) k]
  cases ha : jsLookup a k with
  | some v =>
    cases hb : jsLookup b k with
    | some w => simp [Option.orElse]
    | none => simp [Option.orElse]
  | none =>
    cases hb : jsLookup b k with
    | some w => simp [ha, Option.orElse]
    | none => simp [ha, Option.orElse]

/-- Key membership in an object filtered by a key predicate. -/
theorem jsKeys_filter_key (b : List (String × α)) (g : String → Bool) (k : String) :
    k ∈ jsKeys (b.filter fun p => g p.1) ↔ g k ∧ k ∈ jsKeys b := by
  induction b with
  | nil => simp [jsKeys_nil]
  | cons p ms ih =>
    rw [List.filter_cons]
    by_cases hg : g p.1
    · rw [if_pos hg, jsKeys_cons, jsKeys_cons]
      by_cases h : p.1 = k
      · subst h; simp [hg]
      · simp only [List.mem_cons, ih]
        constructor
        · rintro (hk | ⟨hgk, hm⟩)
          · exact absurd hk.symm h
          · exact ⟨hgk, Or.inr hm⟩
        · rintro ⟨hgk, hk | hm⟩
          · exact absurd hk.symm h
          · exact Or.inr ⟨hgk, hm⟩
    · rw [if_neg hg, jsKeys_cons]
      simp only [ih, List.mem_cons]
      constructor
      · rintro ⟨hgk, hm⟩
        exact ⟨hgk, Or.inr hm⟩
      · rintro ⟨hgk, hk | hm⟩
        · subst hk; exact absurd hgk (by simpa using hg)
        · exact ⟨hgk, hm⟩

/-- The keys of a spread object are the union of both objects' keys. -/
theorem mem_jsKeys_jsSpread (a b : List (String × α)) (k : String) :
    k ∈ jsKeys (jsSpread a b) ↔ k ∈ jsKeys a ∨ k ∈ jsKeys b := by
  rw [jsSpread]
  have hmk : jsKeys ((a.map fun p => (p.1, ((jsLookup b p.1).getD p.2)))
      ++ b.filter fun p => (jsLookup a p.1).isNone)
      = jsKeys (a.map fun p => (p.1, ((jsLookup b p.1).getD p.2)))
        ++ jsKeys (b.filter fun p => (jsLookup a p.1).isNone) := by
    simp [jsKeys]
  rw [hmk, List.mem_append]
  have h1 : jsKeys (a.map fun p => (p.1, ((jsLookup b p.1).getD p.2))) = jsKeys a := by
    simp [jsKeys]
  rw [h1, jsKeys_filter_key b (fun s => (jsLookup a s).isNone) k]
  constructor
  · rintro (ha | ⟨_, hb⟩)
    · exact Or.inl ha
    · exact Or.inr hb
  · rintro (ha | hb)
    · exact Or.inl ha
    · by_cases hm : k ∈ jsKeys a
      · exact Or.inl hm
      · refine Or.inr ⟨?_, hb⟩
        rw [Option.isNone_iff_eq_none]
        cases hla : jsLookup a k with
        | none => rfl
        | some v =>
          exact absurd ((jsLookup_isSome_iff_mem a k).mp (by rw [hla]; rfl)) hm

/-- The resource rewriter preserves the keys of a raw kernelspec map with
no `null` entries. -/
theorem jsKeys_transformRemoteKernelspecs (baseUrl token : String)
    (kernelspecs : List (String × Option RawEntry))
    (h : ∀ p ∈ kernelspecs, p.2.isSome = true) :
    jsKeys (transformRemoteKernelspecs baseUrl token kernelspecs) = jsKeys kernelspecs := by
  induction kernelspecs with
  | nil => rfl
  | cons p ms ih =>
    have hp : p.2.isSome = true := h p (List.mem_cons_self p ms)
    cases hv : p.2 with
    | none => rw [hv] at hp; cases hp
    | some rawSpec =>
      have : transformRemoteKernelspecs baseUrl token (p :: ms)
          = (p.1, transformRemoteEntry baseUrl token p.1 rawSpec)
            :: transformRemoteKernelspecs baseUrl token ms := by
        simp [transformRemoteKernelspecs, hv]
      rw [this, jsKeys_cons, jsKeys_cons, ih (fun q hq => h q (List.mem_cons_of_mem p hq))]

/-- Under the no-null-entry assumption, the server-side contribution to the
merged map has exactly the server side's keys. -/
theorem jsKeys_server_contribution (baseUrl token : String) (serverFetch : ServerFetch)
    (hNoNull : ∀ specs, serverFetch = ServerFetch.remoteSpecs (some specs) →
      ∀ p ∈ specs.kernelspecs, p.2.isSome = true) :
    jsKeys ((serverFetch.transformedKernelspecs baseUrl token).getD [])
      = serverFetch.specKeys := by
  cases serverFetch with
  | hybridSpecs specs =>
    cases specs with
    | none => rfl
    | some s => rfl
  | remoteSpecs specs =>
    cases specs with
    | none => rfl
    | some s =>
      simp only [ServerFetch.transformedKernelspecs, ServerFetch.specKeys, Option.map_some,
        Option.getD_some]
      exact jsKeys_transformRemoteKernelspecs baseUrl token s.kernelspecs (hNoNull s rfl)

/-- C4: after every successful registry rebuild (one in which at least one
side yielded a registry, and, in remote mode, none of the fetched entries
was `null`), the merged registry is stored and emitted, its kernelspec
keys are the union of the server side's keys and the lite side's keys, and
every key of the lite side resolves to the lite side's entry (the lite
entry wins every collision). -/
theorem merged_registry_keys_union_lite_wins
    (baseUrl token : String) (serverFetch : ServerFetch)
    (newLiteSpecs : Option SpecModels) (st : SpecManagerState)
    (hRebuild : (serverFetch.isNone && newLiteSpecs.isNone) = false)
    (hNoNull : ∀ specs, serverFetch = ServerFetch.remoteSpecs (some specs) →
      ∀ p ∈ specs.kernelspecs, p.2.isSome = true) :
    refreshSpecs baseUrl token serverFetch newLiteSpecs st
      = ({ specs := some (mergedRegistry baseUrl token serverFetch newLiteSpecs) },
         [mergedRegistry baseUrl token serverFetch newLiteSpecs]) ∧
    (∀ k, k ∈ jsKeys (mergedRegistry baseUrl token serverFetch newLiteSpecs).kernelspecs ↔
      k ∈ serverFetch.specKeys ∨ k ∈ jsKeys ((newLiteSpecs.map (·.kernelspecs)).getD [])) ∧
    (∀ k, k ∈ jsKeys ((newLiteSpecs.map (·.kernelspecs)).getD []) →
      jsLookup (mergedRegistry baseUrl token serverFetch newLiteSpecs).kernelspecs k
        = jsLookup ((newLiteSpecs.map (·.kernelspecs)).getD []) k) := by
  refine ⟨?_, ?_, ?_⟩
  · simp [refreshSpecs, hRebuild]
  · intro k
    show k ∈ jsKeys (jsSpread ((serverFetch.transformedKernelspecs baseUrl token).getD [])
      ((newLiteSpecs.map (·.kernelspecs)).getD [])) ↔ _
    rw [mem_jsKeys_jsSpread, jsKeys_server_contribution baseUrl token serverFetch hNoNull]
  · intro k hk
    show jsLookup (jsSpread ((serverFetch.transformedKernelspecs baseUrl token).getD [])
      ((newLiteSpecs.map (·.kernelspecs)).getD [])) k = _
    rw [jsLookup_jsSpread]
    have hsome : (jsLookup ((newLiteSpecs.map (·.kernelspecs)).getD []) k).isSome = true :=
      (jsLookup_isSome_iff_mem _ k).mpr hk
    cases hv : jsLookup ((newLiteSpecs.map (·.kernelspecs)).getD []) k with
    | none => rw [hv] at hsome; cases hsome
    | some v => simp [hv, Option.orElse]

/-- Witness for C4: hybrid-mode merge of a server registry and a lite
registry that both define `python3`; the merged registry contains the key
and resolves it to the lite side's entry (`display_name` "Local Python"). -/
theorem merged_registry_keys_union_lite_wins_witness :
    jsLookup (mergedRegistry "" ""
        (ServerFetch.hybridSpecs (some ⟨"python3",
          [("python3", ⟨"python3", "Remote Python", "python", [], [], [], []⟩)]⟩))
        (some ⟨"python3",
          [("python3", ⟨"python3", "Local Python", "python", [], [], [], []⟩)]⟩)).kernelspecs
      "python3"
      = some ⟨"python3", "Local Python", "python", [], [], [], []⟩ ∧
    "python3" ∈ jsKeys (mergedRegistry "" ""
        (ServerFetch.hybridSpecs (some ⟨"python3",
          [("python3", ⟨"python3", "Remote Python", "python", [], [], [], []⟩)]⟩))
        (some ⟨"python3",
          [("python3", ⟨"python3", "Local Python", "python", [], [], [], []⟩)]⟩)).kernelspecs := by
  have h := merged_registry_keys_union_lite_wins "" ""
    (ServerFetch.hybridSpecs (some ⟨"python3",
      [("python3", ⟨"python3", "Remote Python", "python", [], [], [], []⟩)]⟩))
    (some ⟨"python3",
      [("python3", ⟨"python3", "Local Python", "python", [], [], [], []⟩)]⟩)
    ⟨none⟩ (by decide) (fun specs hh => ServerFetch.noConfusion hh)
  constructor
  · have h3 := h.2.2 "python3" (by decide)
    rw [h3]
    decide
  · exact (h.2.1 "python3").mpr (Or.inr (by decide))

/-- C5 counterexample: the skip check is `!serverSpecs && !newLiteSpecs`,
a null test, not an emptiness test. When the remote fetch succeeds with an
empty registry (and the lite side yields nothing), the refresh does not
skip: it replaces a previously stored non-empty registry with the empty
merge and emits a change notification, contradicting the claim that both
sides being "empty" preserves the prior registry with no notification. -/
theorem refresh_empty_side_still_updates_counterexample :
    (refreshSpecs "" "" (ServerFetch.remoteSpecs (some ⟨none, []⟩)) none
        ⟨some ⟨"python3", [("python3", ⟨"python3", "Local Python", "python", [], [], [], []⟩)]⟩⟩).1
      ≠ ⟨some ⟨"python3", [("python3", ⟨"python3", "Local Python", "python", [], [], [], []⟩)]⟩⟩ ∧
    (refreshSpecs "" "" (ServerFetch.remoteSpecs (some ⟨none, []⟩)) none
        ⟨some ⟨"python3", [("python3", ⟨"python3", "Local Python", "python", [], [], [], []⟩)]⟩⟩).2
      ≠ [] := by
  decide

/-- C5 (amended): the refresh skips the update exactly when both sides
yield nothing in the null sense — the server-side fetch produced no
registry object and the lite manager's specs are null. In that case the
stored registry (whatever it was) is left unchanged and nothing is
emitted; in every other case, including an empty-but-present registry on
either side, the merge is stored and emitted. -/
theorem refresh_skips_iff_both_sides_null
    (baseUrl token : String) (serverFetch : ServerFetch)
    (newLiteSpecs : Option SpecModels) (st : SpecManagerState) :
    ((serverFetch.isNone && newLiteSpecs.isNone) = true →
      refreshSpecs baseUrl token serverFetch newLiteSpecs st = (st, [])) ∧
    ((serverFetch.isNone && newLiteSpecs.isNone) = false →
      refreshSpecs baseUrl token serverFetch newLiteSpecs st
        = ({ specs := some (mergedRegistry baseUrl token serverFetch newLiteSpecs) },
           [mergedRegistry baseUrl token serverFetch newLiteSpecs])) := by
  constructor
  · intro h
    simp [refreshSpecs, h]
  · intro h
    simp [refreshSpecs, h]

/-- Witness for C5: with the remote fetch failed and null lite specs, a
stored non-empty registry survives a refresh untouched, with no
emission. -/
theorem refresh_skips_iff_both_sides_null_witness :
    refreshSpecs "" "" (ServerFetch.remoteSpecs none) none
        ⟨some ⟨"python3", [("python3", ⟨"python3", "Local Python", "python", [], [], [], []⟩)]⟩⟩
      = (⟨some ⟨"python3", [("python3", ⟨"python3", "Local Python", "python", [], [], [], []⟩)]⟩⟩,
         []) :=
  (refresh_skips_iff_both_sides_null "" "" (ServerFetch.remoteSpecs none) none
    ⟨some ⟨"python3", [("python3", ⟨"python3", "Local Python", "python", [], [], [], []⟩)]⟩⟩).1
    (by decide)

/-- C6: the code's resource-URL rewrite agrees with the specification's
case description for every base URL, token and resource string, and the
claim's concrete example holds: rewriting the resource map
`kernel.js = "/static/k.js"` against base `https://host/prefix/` with no
token yields `https://host/static/k.js` (origin-only join). -/
theorem transformResourceUrl_matches_spec :
    (∀ baseUrl token resourcePath,
      transformResourceUrl baseUrl token resourcePath
        = rewriteResourceUrlSpec baseUrl token resourcePath) ∧
    transformResourceUrl "https://host/prefix/" "" "/static/k.js"
      = "https://host/static/k.js" ∧
    (transformRemoteEntry "https://host/prefix/" "" "kernel.js"
        ⟨{ RawSpecObj.empty with resources := some [("kernel.js", some "/static/k.js")] },
          none⟩).resources
      = [("kernel.js", "https://host/static/k.js")] := by
  refine ⟨?_, by decide, by decide⟩
  intro baseUrl token resourcePath
  unfold transformResourceUrl rewriteResourceUrlSpec
  by_cases h1 : jsStartsWith resourcePath "http://"
  · by_cases ht : token = "" <;> simp [h1, ht]
  · by_cases h2 : jsStartsWith resourcePath "https://"
    · by_cases ht : token = "" <;> simp [h1, h2, ht]
    · by_cases h3 : jsStartsWith resourcePath "/"
      · by_cases ht : token = "" <;> simp [h1, h2, h3, ht]
      · by_cases ht : token = "" <;> simp [h1, h2, h3, ht]

/-- C7: the remote-spec rewriter is total by construction (it is a Lean
function defined on every `RawEntry`, flat or nested, so no input makes it
throw), and every missing field defaults deterministically: `name` and
`display_name` to the map key, `language` to the empty string, `argv` and
`metadata` to empty containers, `resources` to the empty map. The nested
envelope is unwrapped by preferring the inner `spec` object's fields, and
the entry-level `resources` is preferred over the inner `spec.resources`. -/
theorem transformRemoteEntry_total_defaults
    (baseUrl token key : String) (e : RawEntry) :
    ((e.spec.getD e.top).name = none →
      (transformRemoteEntry baseUrl token key e).name = key) ∧
    ((e.spec.getD e.top).display_name = none →
      (transformRemoteEntry baseUrl token key e).display_name = key) ∧
    ((e.spec.getD e.top).language = none →
      (transformRemoteEntry baseUrl token key e).language = "") ∧
    ((e.spec.getD e.top).argv = none →
      (transformRemoteEntry baseUrl token key e).argv = []) ∧
    ((e.spec.getD e.top).metadata = none →
      (transformRemoteEntry baseUrl token key e).metadata = []) ∧
    (e.top.resources = none → (e.spec.getD e.top).resources = none →
      (transformRemoteEntry baseUrl token key e).resources = []) ∧
    (∀ s, e.spec = some s →
      (transformRemoteEntry baseUrl token key e).name = s.name.getD key ∧
      (transformRemoteEntry baseUrl token key e).display_name = s.display_name.getD key ∧
      (transformRemoteEntry baseUrl token key e).language = s.language.getD "") ∧
    (∀ r, e.top.resources = some r →
      (transformRemoteEntry baseUrl token key e).resources
        = r.filterMap (fun p =>
            match p.2 with
            | some resourcePath =>
              some (p.1, transformResourceUrl baseUrl token resourcePath)
            | none => none)) := by
  refine ⟨?_, ?_, ?_, ?_, ?_, ?_, ?_, ?_⟩
  · intro h; simp [transformRemoteEntry, h]
  · intro h; simp [transformRemoteEntry, h]
  · intro h; simp [transformRemoteEntry, h]
  · intro h; simp [transformRemoteEntry, h]
  · intro h; simp [transformRemoteEntry, h]
  · intro h1 h2; simp [transformRemoteEntry, h1, h2, Option.orElse]
  · intro s hs; refine ⟨?_, ?_, ?_⟩ <;> simp [transformRemoteEntry, hs]
  · intro r hr; simp [transformRemoteEntry, hr, Option.orElse]

/-- Witness for C7: the rewriter applied to a wholly-empty raw entry under
map key `foo` produces all the documented defaults. -/
theorem transformRemoteEntry_total_defaults_witness :
    (transformRemoteEntry "https://host/" "" "foo" ⟨RawSpecObj.empty, none⟩).name = "foo" ∧
    (transformRemoteEntry "https://host/" "" "foo" ⟨RawSpecObj.empty, none⟩).display_name
      = "foo" ∧
    (transformRemoteEntry "https://host/" "" "foo" ⟨RawSpecObj.empty, none⟩).language = "" ∧
    (transformRemoteEntry "https://host/" "" "foo" ⟨RawSpecObj.empty, none⟩).argv = [] ∧
    (transformRemoteEntry "https://host/" "" "foo" ⟨RawSpecObj.empty, none⟩).metadata = [] ∧
    (transformRemoteEntry "https://host/" "" "foo" ⟨RawSpecObj.empty, none⟩).resources = [] := by
  have h := transformRemoteEntry_total_defaults "https://host/" "" "foo" ⟨RawSpecObj.empty, none⟩
  exact ⟨h.1 rfl, h.2.1 rfl, h.2.2.1 rfl, h.2.2.2.1 rfl, h.2.2.2.2.1 rfl, h.2.2.2.2.2.1 rfl rfl⟩

/-- C1 counterexample: a kernel name contributed to the merged registry by
the server side alone (`python3`, lite registry empty) is a key of the
merged registry's kernelspecs, yet both `startNew` routers send it to the
remote backend — the code classifies against the lite registry, not the
merged one. -/
theorem startNew_merged_key_routes_remote_counterexample :
    "python3" ∈ jsKeys (mergedRegistry "" ""
        (ServerFetch.hybridSpecs (some ⟨"python3",
          [("python3", ⟨"python3", "Remote Python", "python", [], [], [], []⟩)]⟩))
        (some ⟨"", []⟩)).kernelspecs ∧
    HybridKernelManager.startNewRoute (some ⟨"", []⟩) (some "python3") = .remote ∧
    HybridKernelClient.startNewRoute (some ⟨"", []⟩) (some "python3") = .remote := by
  decide

/-- C1 (amended): `startNew` classifies by name against the in-process
(lite) spec registry: a truthy name that is a key of the lite registry
routes to the lite backend, any other name routes to the remote backend.
Since the lite registry's keys are a subset of the merged registry's keys,
a name absent from the merged registry still always routes to remote. -/
theorem startNew_routes_by_lite_registry
    (baseUrl token : String) (serverFetch : ServerFetch)
    (liteSpecs : Option SpecModels) (name : Option String) :
    ((name.getD "" ≠ "" ∧ liteHasSpec liteSpecs (name.getD "") = true) →
      HybridKernelManager.startNewRoute liteSpecs name = .lite ∧
      HybridKernelClient.startNewRoute liteSpecs name = .lite) ∧
    (liteHasSpec liteSpecs (name.getD "") = false →
      HybridKernelManager.startNewRoute liteSpecs name = .remote ∧
      HybridKernelClient.startNewRoute liteSpecs name = .remote) ∧
    (name.getD "" ∉ jsKeys (mergedRegistry baseUrl token serverFetch liteSpecs).kernelspecs →
      HybridKernelManager.startNewRoute liteSpecs name = .remote ∧
      HybridKernelClient.startNewRoute liteSpecs name = .remote) := by
  refine ⟨?_, ?_, ?_⟩
  · rintro ⟨hn, hs⟩
    constructor <;>
      simp [HybridKernelManager.startNewRoute, HybridKernelClient.startNewRoute, hn, hs]
  · intro hs
    constructor <;>
      simp [HybridKernelManager.startNewRoute, HybridKernelClient.startNewRoute, hs]
  · intro hmem
    have hs : liteHasSpec liteSpecs (name.getD "") = false := by
      cases hv : liteHasSpec liteSpecs (name.getD "") with
      | false => rfl
      | true =>
        exfalso
        apply hmem
        cases liteSpecs with
        | none => simp [liteHasSpec] at hv
        | some r =>
          have hm : name.getD "" ∈ jsKeys r.kernelspecs :=
            (jsLookup_isSome_iff_mem _ _).mp (by simpa [liteHasSpec] using hv)
          have : name.getD "" ∈ jsKeys (jsSpread
              ((serverFetch.transformedKernelspecs baseUrl token).getD []) r.kernelspecs) :=
            (mem_jsKeys_jsSpread _ _ _).mpr (Or.inr hm)
          simpa [mergedRegistry] using this
    constructor <;>
      simp [HybridKernelManager.startNewRoute, HybridKernelClient.startNewRoute, hs]

/-- Witness for C1 (amended): a name carried by the lite registry routes
to the lite backend in both routers. -/
theorem startNew_routes_by_lite_registry_witness :
    HybridKernelManager.startNewRoute
        (some ⟨"python3", [("python3", ⟨"python3", "Python (lite)", "python", [], [], [], []⟩)]⟩)
        (some "python3") = .lite ∧
    HybridKernelClient.startNewRoute
        (some ⟨"python3", [("python3", ⟨"python3", "Python (lite)", "python", [], [], [], []⟩)]⟩)
        (some "python3") = .lite :=
  (startNew_routes_by_lite_registry "" "" (ServerFetch.hybridSpecs none)
    (some ⟨"python3", [("python3", ⟨"python3", "Python (lite)", "python", [], [], [], []⟩)]⟩)
    (some "python3")).1 ⟨by decide, by decide⟩

/-- One lite lifecycle step keeps `_liteKernelIds` in sync with the lite
client's own kernels map: the constructor's `changed` handler applies the
same mutation the map just underwent. -/
theorem applyLiteOp_preserves_sync (st : HybridClientState)
    (h : st.liteKernelIds = st.liteKernels) (op : LiteOp) :
    (applyLiteOp st op).liteKernelIds = (applyLiteOp st op).liteKernels := by
  cases op with
  | start id => simp [applyLiteOp, trackLiteChange, h]
  | stop id => simp [applyLiteOp, trackLiteChange, h]

/-- In every state reachable from the initial one, the hybrid client's
tracked `_liteKernelIds` equals the lite client's running enumeration. -/
theorem runLiteOps_sync (ops : List LiteOp) :
    (runLiteOps ops).liteKernelIds = (runLiteOps ops).liteKernels := by
  suffices h : ∀ st : HybridClientState, st.liteKernelIds = st.liteKernels →
      (ops.foldl applyLiteOp st).liteKernelIds = (ops.foldl applyLiteOp st).liteKernels by
    exact h ⟨[], []⟩ rfl
  induction ops with
  | nil => exact fun st h => h
  | cons op rest ih => exact fun st h => ih _ (applyLiteOp_preserves_sync st h op)

/-- C2: for an id currently reported by the lite backend's running
enumeration, each of the hybrid client's `shutdown`, `restart` and
`interrupt` and the hybrid kernel manager's `shutdown` delegates to the
lite backend exactly once (the call list is exactly one lite call) and
never to the remote backend. -/
theorem lite_running_id_ops_route_lite_once
    (ops : List LiteOp) (id : String)
    (liteRunning : List KernelModel) (liteSpecs : Option SpecModels)
    (hclient : id ∈ (runLiteOps ops).liteKernels)
    (hmgr : id ∈ liteRunning.map (·.id)) :
    HybridKernelClient.shutdownCalls (runLiteOps ops) id = [(.lite, id)] ∧
    HybridKernelClient.restartCalls (runLiteOps ops) id = [(.lite, id)] ∧
    HybridKernelClient.interruptCalls (runLiteOps ops) id = [(.lite, id)] ∧
    HybridKernelManager.shutdownCalls liteRunning liteSpecs id = [(.lite, id)] := by
  have hlite : HybridKernelClient.isLiteKernel (runLiteOps ops) id = true := by
    rw [HybridKernelClient.isLiteKernel, runLiteOps_sync]
    simpa using hclient
  have hfind : (liteRunning.find? fun kernel => kernel.id = id).isSome = true := by
    obtain ⟨kernel, hk, hid⟩ := List.mem_map.mp hmgr
    rw [List.find?_isSome]
    exact ⟨kernel, hk, by simpa using hid⟩
  have hmliteK : HybridKernelManager.isLiteKernel liteRunning liteSpecs (some id, none)
      = true := by
    rw [HybridKernelManager.isLiteKernel]
    simp only [Bool.or_eq_true]
    left
    simpa using hfind
  refine ⟨?_, ?_, ?_, ?_⟩
  · simp [HybridKernelClient.shutdownCalls, hlite]
  · simp [HybridKernelClient.restartCalls, hlite]
  · simp [HybridKernelClient.interruptCalls, hlite]
  · simp [HybridKernelManager.shutdownCalls, hmliteK]

/-- Witness for C2: after starting lite kernel `k1`, the client routes all
three id-based operations on `k1` to the lite backend exactly once, as
does the manager when `k1` is in the lite running enumeration. -/
theorem lite_running_id_ops_route_lite_once_witness :
    HybridKernelClient.shutdownCalls (runLiteOps [LiteOp.start "k1"]) "k1"
      = [(.lite, "k1")] ∧
    HybridKernelClient.restartCalls (runLiteOps [LiteOp.start "k1"]) "k1"
      = [(.lite, "k1")] ∧
    HybridKernelClient.interruptCalls (runLiteOps [LiteOp.start "k1"]) "k1"
      = [(.lite, "k1")] ∧
    HybridKernelManager.shutdownCalls [⟨"k1", "python3"⟩] none "k1" = [(.lite, "k1")] :=
  lite_running_id_ops_route_lite_once [LiteOp.start "k1"] "k1" [⟨"k1", "python3"⟩] none
    (by decide) (by decide)

/-- C3 counterexample: `connectTo` passes the full model to
`_isLiteKernel`, which also tests the model's name against the lite spec
registry. With an empty lite running enumeration (so the id `remote-id-1`
appears in no lite enumeration) and `python3` in the lite spec registry,
`connectTo` routes to the lite backend, not to the remote fallback the
claim requires for ids absent from the local enumeration. -/
theorem connectTo_unknown_id_routes_by_name_counterexample :
    "remote-id-1" ∉ (([] : List KernelModel).map (·.id)) ∧
    HybridKernelManager.connectToRoute []
      (some ⟨"python3", [("python3", ⟨"python3", "Python (lite)", "python", [], [], [], []⟩)]⟩)
      ⟨"remote-id-1", "python3"⟩ = .lite := by
  decide

/-- C3 (amended): `shutdown`, `restart` and `interrupt` classify by id
with remote as the default fallback — the hybrid client against its
tracked lite-id set, the manager's `shutdown` against the lite running
enumeration (falling to remote provided the lite registry has no
empty-string kernel name, the degenerate lookup its bare `\x7b id \x7d`
argument produces). `connectTo`, however, also consults the model's
kernel name: an id absent from the lite enumeration routes to remote only
when the name is not a key of the lite spec registry, and routes to the
lite backend when it is. -/
theorem id_ops_route_remote_unless_lite
    (ops : List LiteOp) (id : String)
    (liteRunning : List KernelModel) (liteSpecs : Option SpecModels)
    (model : KernelModel) :
    (id ∉ (runLiteOps ops).liteKernels →
      HybridKernelClient.shutdownCalls (runLiteOps ops) id = [(.remote, id)] ∧
      HybridKernelClient.restartCalls (runLiteOps ops) id = [(.remote, id)] ∧
      HybridKernelClient.interruptCalls (runLiteOps ops) id = [(.remote, id)]) ∧
    (id ∉ liteRunning.map (·.id) → liteHasSpec liteSpecs "" = false →
      HybridKernelManager.shutdownCalls liteRunning liteSpecs id = [(.remote, id)]) ∧
    (model.id ∉ liteRunning.map (·.id) →
      (liteHasSpec liteSpecs model.name = false →
        HybridKernelManager.connectToRoute liteRunning liteSpecs model = .remote) ∧
      (liteHasSpec liteSpecs model.name = true →
        HybridKernelManager.connectToRoute liteRunning liteSpecs model = .lite)) := by
  refine ⟨?_, ?_, ?_⟩
  · intro hnot
    have hlite : HybridKernelClient.isLiteKernel (runLiteOps ops) id = false := by
      rw [HybridKernelClient.isLiteKernel, runLiteOps_sync]
      simpa using hnot
    exact ⟨by simp [HybridKernelClient.shutdownCalls, hlite],
      by simp [HybridKernelClient.restartCalls, hlite],
      by simp [HybridKernelClient.interruptCalls, hlite]⟩
  · intro hnot hspec
    have hfind : (liteRunning.find? fun kernel => kernel.id = id) = none := by
      rw [List.find?_eq_none]
      intro kernel hk
      simp only [decide_eq_true_eq]
      exact fun hid => hnot (List.mem_map.mpr ⟨kernel, hk, hid⟩)
    have hml : HybridKernelManager.isLiteKernel liteRunning liteSpecs (some id, none)
        = false := by
      rw [HybridKernelManager.isLiteKernel]
      simp [hfind, hspec]
    simp [HybridKernelManager.shutdownCalls, hml]
  · intro hnot
    have hfind : (liteRunning.find? fun kernel => kernel.id = model.id) = none := by
      rw [List.find?_eq_none]
      intro kernel hk
      simp only [decide_eq_true_eq]
      exact fun hid => hnot (List.mem_map.mpr ⟨kernel, hk, hid⟩)
    constructor
    · intro hspec
      have hml : HybridKernelManager.isLiteKernel liteRunning liteSpecs
          (some model.id, some model.name) = false := by
        rw [HybridKernelManager.isLiteKernel]
        simp [hfind, hspec]
      simp [HybridKernelManager.connectToRoute, hml]
    · intro hspec
      have hml : HybridKernelManager.isLiteKernel liteRunning liteSpecs
          (some model.id, some model.name) = true := by
        rw [HybridKernelManager.isLiteKernel]
        simp [hspec]
      simp [HybridKernelManager.connectToRoute, hml]

/-- Witness for C3 (amended): on an id unknown to the lite side, the
client ops and the manager's `shutdown` fall back to remote, while
`connectTo` with a lite-spec kernel name still routes to the lite
backend. -/
theorem id_ops_route_remote_unless_lite_witness :
    HybridKernelClient.shutdownCalls (runLiteOps []) "u1" = [(.remote, "u1")] ∧
    HybridKernelManager.shutdownCalls []
      (some ⟨"python3", [("python3", ⟨"python3", "Python (lite)", "python", [], [], [], []⟩)]⟩)
      "u1" = [(.remote, "u1")] ∧
    HybridKernelManager.connectToRoute []
      (some ⟨"python3", [("python3", ⟨"python3", "Python (lite)", "python", [], [], [], []⟩)]⟩)
      ⟨"u1", "python3"⟩ = .lite := by
  have h := id_ops_route_remote_unless_lite [] "u1" []
    (some ⟨"python3", [("python3", ⟨"python3", "Python (lite)", "python", [], [], [], []⟩)]⟩)
    ⟨"u1", "python3"⟩
  exact ⟨(h.1 (by decide)).1, h.2.1 (by decide) (by decide), (h.2.2 (by decide)).2 (by decide)⟩

/-- C8 counterexample: when both backends know the same id, `findById`
returns the REMOTE backend's model — the code probes the remote kernel
manager first and the lite manager only on a miss, so the claim's
local-first probe order is wrong. -/
theorem findById_remote_probed_first_counterexample :
    HybridKernelManager.findById [⟨"k1", "remote-python"⟩] [⟨"k1", "lite-python"⟩] "k1"
      = some ⟨"k1", "remote-python"⟩ ∧
    (⟨"k1", "remote-python"⟩ : KernelModel) ≠ ⟨"k1", "lite-python"⟩ := by
  decide

/-- C8 (amended): `findById` (kernel manager and session manager alike)
probes the remote backend first and the lite backend second; the first hit
wins, and the result is `undefined` (`none`) exactly when neither backend
has a model for the id. -/
theorem findById_remote_first_then_lite
    (remoteKernels liteKernels : List KernelModel)
    (remoteSessions liteSessions : List SessionModel) (id : String) :
    (∀ m, remoteKernels.find? (fun kernel => kernel.id = id) = some m →
      HybridKernelManager.findById remoteKernels liteKernels id = some m) ∧
    (remoteKernels.find? (fun kernel => kernel.id = id) = none →
      HybridKernelManager.findById remoteKernels liteKernels id
        = liteKernels.find? (fun kernel => kernel.id = id)) ∧
    (remoteKernels.find? (fun kernel => kernel.id = id) = none →
      liteKernels.find? (fun kernel => kernel.id = id) = none →
      HybridKernelManager.findById remoteKernels liteKernels id = none) ∧
    (∀ m, remoteSessions.find? (fun session => session.id = id) = some m →
      HybridSessionManager.findById remoteSessions liteSessions id = some m) ∧
    (remoteSessions.find? (fun session => session.id = id) = none →
      HybridSessionManager.findById remoteSessions liteSessions id
        = liteSessions.find? (fun session => session.id = id)) ∧
    (remoteSessions.find? (fun session => session.id = id) = none →
      liteSessions.find? (fun session => session.id = id) = none →
      HybridSessionManager.findById remoteSessions liteSessions id = none) := by
  refine ⟨?_, ?_, ?_, ?_, ?_, ?_⟩
  · intro m hm; rw [HybridKernelManager.findById, hm]
  · intro hm; rw [HybridKernelManager.findById, hm]
  · intro hm hl; rw [HybridKernelManager.findById, hm, hl]
  · intro m hm; rw [HybridSessionManager.findById, hm]
  · intro hm; rw [HybridSessionManager.findById, hm]
  · intro hm hl; rw [HybridSessionManager.findById, hm, hl]

/-- Witness for C8 (amended): a remote hit wins and an id unknown to both
backends yields `none`. -/
theorem findById_remote_first_then_lite_witness :
    HybridKernelManager.findById [⟨"k1", "remote-python"⟩] [⟨"k2", "lite-python"⟩] "k1"
      = some ⟨"k1", "remote-python"⟩ ∧
    HybridKernelManager.findById [⟨"k1", "remote-python"⟩] [⟨"k2", "lite-python"⟩] "k9"
      = none := by
  have h1 := findById_remote_first_then_lite [⟨"k1", "remote-python"⟩] [⟨"k2", "lite-python"⟩]
    [] [] "k1"
  have h2 := findById_remote_first_then_lite [⟨"k1", "remote-python"⟩] [⟨"k2", "lite-python"⟩]
    [] [] "k9"
  exact ⟨h1.1 ⟨"k1", "remote-python"⟩ (by decide), h2.2.2.1 (by decide) (by decide)⟩

/-- C9: `listRunning` in the hybrid kernel client resolves even when the
remote enumeration rejects — it returns exactly the lite backend's kernels
in that case, and the concatenation of both enumerations when the remote
call succeeds. -/
theorem listRunning_degrades_to_lite
    (liteKernels : List KernelModel) (remoteResult : Except Unit (List KernelModel)) :
    (∀ e, remoteResult = .error e →
      HybridKernelClient.listRunning liteKernels remoteResult = liteKernels) ∧
    (∀ remoteKernels, remoteResult = .ok remoteKernels →
      HybridKernelClient.listRunning liteKernels remoteResult
        = liteKernels ++ remoteKernels) := by
  constructor
  · intro e he; rw [he]; rfl
  · intro remoteKernels hr; rw [hr]; rfl

/-- Witness for C9: with the remote server unreachable the call still
yields the lite kernels; with it reachable the result is the
concatenation. -/
theorem listRunning_degrades_to_lite_witness :
    HybridKernelClient.listRunning [⟨"a", "python3"⟩] (Except.error ())
      = [⟨"a", "python3"⟩] ∧
    HybridKernelClient.listRunning [⟨"a", "python3"⟩] (Except.ok [⟨"b", "julia"⟩])
      = [⟨"a", "python3"⟩, ⟨"b", "julia"⟩] :=
  ⟨(listRunning_degrades_to_lite [⟨"a", "python3"⟩] (Except.error ())).1 () rfl,
   (listRunning_degrades_to_lite [⟨"a", "python3"⟩] (Except.ok [⟨"b", "julia"⟩])).2
     [⟨"b", "julia"⟩] rfl⟩

/-- C10: `RemoteServerConfig.update` is idempotent on equal values — when
each provided field equals the stored value (or is omitted) it performs no
store write and emits no `changed` signal — and when a provided field
differs from the stored value, that field is written to the store and
exactly one `changed` signal is emitted for the whole call. -/
theorem config_update_idempotent_single_emit
    (config : Option String × Option String) (store : PageConfigStore) :
    ((config.1 = none ∨ config.1 = some store.hybridKernelsBaseUrl) →
     (config.2 = none ∨ config.2 = some store.hybridKernelsToken) →
      RemoteServerConfig.update config store = ⟨store, 0, 0⟩) ∧
    (∀ b, config.1 = some b → b ≠ store.hybridKernelsBaseUrl →
      (RemoteServerConfig.update config store).store.hybridKernelsBaseUrl = b ∧
      (RemoteServerConfig.update config store).store ≠ store ∧
      (RemoteServerConfig.update config store).emits = 1) ∧
    (∀ t, config.2 = some t → t ≠ store.hybridKernelsToken →
      (RemoteServerConfig.update config store).store.hybridKernelsToken = t ∧
      (RemoteServerConfig.update config store).store ≠ store ∧
      (RemoteServerConfig.update config store).emits = 1) := by
  obtain ⟨cb, ct⟩ := config
  refine ⟨?_, ?_, ?_⟩
  · rintro (hb | hb) (ht | ht) <;> subst hb <;> subst ht <;>
      simp [RemoteServerConfig.update]
  · intro b hb hbne
    subst hb
    have hbase : (RemoteServerConfig.update (some b, ct) store).store.hybridKernelsBaseUrl
        = b := by
      cases ct with
      | none => simp [RemoteServerConfig.update, hbne]
      | some t =>
        by_cases hteq : t = store.hybridKernelsToken <;>
          simp [RemoteServerConfig.update, hbne, hteq]
    refine ⟨hbase, ?_, ?_⟩
    · intro hcontra
      exact hbne (hbase ▸ congrArg PageConfigStore.hybridKernelsBaseUrl hcontra)
    · cases ct with
      | none => simp [RemoteServerConfig.update, hbne]
      | some t =>
        by_cases hteq : t = store.hybridKernelsToken <;>
          simp [RemoteServerConfig.update, hbne, hteq]
  · intro t ht htne
    subst ht
    have htok : (RemoteServerConfig.update (cb, some t) store).store.hybridKernelsToken
        = t := by
      cases cb with
      | none => simp [RemoteServerConfig.update, htne]
      | some b =>
        by_cases hbeq : b = store.hybridKernelsBaseUrl <;>
          simp [RemoteServerConfig.update, htne, hbeq]
    refine ⟨htok, ?_, ?_⟩
    · intro hcontra
      exact htne (htok ▸ congrArg PageConfigStore.hybridKernelsToken hcontra)
    · cases cb with
      | none => simp [RemoteServerConfig.update, htne]
      | some b =>
        by_cases hbeq : b = store.hybridKernelsBaseUrl <;>
          simp [RemoteServerConfig.update, htne, hbeq]

/-- Witness for C10: re-supplying the stored base URL writes and emits
nothing; supplying a different base URL updates the store and emits the
`changed` signal exactly once. -/
theorem config_update_idempotent_single_emit_witness :
    RemoteServerConfig.update (some "https://a", none) ⟨"https://a", "t1"⟩
      = ⟨⟨"https://a", "t1"⟩, 0, 0⟩ ∧
    (RemoteServerConfig.update (some "https://b", some "t1")
        ⟨"https://a", "t1"⟩).store.hybridKernelsBaseUrl = "https://b" ∧
    (RemoteServerConfig.update (some "https://b", some "t1")
        ⟨"https://a", "t1"⟩).emits = 1 := by
  have h1 := config_update_idempotent_single_emit (some "https://a", none)
    ⟨"https://a", "t1"⟩
  have h2 := config_update_idempotent_single_emit (some "https://b", some "t1")
    ⟨"https://a", "t1"⟩
  have h2b := h2.2.1 "https://b" rfl (by decide)
  exact ⟨h1.1 (Or.inr rfl) (Or.inl rfl), h2b.1, h2b.2.2⟩
